import Mathlib

/-!
Verification of the new_stock_crawler enrichment, scraping and export logic.

Shallow embedding conventions:
* Python ints are modelled as `Int`, Python floats as `Rat` (exact rational
  arithmetic; Python's `round(x, 2)` is modelled as round-half-to-even on the
  exact rational value).
* Fallible Python code is modelled with `Except Unit`; a `try/except` handler
  pattern-matches on the result.
* `Optional[T]` values and Python `None` are modelled as `Option`.
* External capabilities (the ticker mapper port, the market-data port and the
  pandas date parser) are fields of an environment structure, quantified over
  in the theorems.
-/

namespace StockCrawler

/-- Truncation of a rational toward zero, the semantics of Python `int(float)`. -/
def pyTrunc (q : ℚ) : ℤ :=
  if 0 ≤ q then ⌊q⌋ else ⌈q⌉

/-- Round-half-to-even to the nearest integer, the semantics of Python `round`. -/
def pyRound0 (q : ℚ) : ℤ :=
  if q - ⌊q⌋ = 1 / 2 then (if ⌊q⌋ % 2 = 0 then ⌊q⌋ else ⌊q⌋ + 1) else round q

/-- Python `round(q, 2)`: round-half-to-even at two decimal places. -/
def pyRound2 (q : ℚ) : ℚ :=
  (pyRound0 (q * 100) : ℚ) / 100

/-- StockPriceEnricher._calculate_growth_rate: `if confirmed_price and
confirmed_price > 0` (Python truthiness plus the positivity test) guards the
formula `round((close - confirmed) / confirmed * 100, 2)`; otherwise `None`. -/
def calculate_growth_rate (close_price : ℤ) (confirmed_price : Option ℤ) : Option ℚ :=
  match confirmed_price with
  | some c =>
      if c ≠ 0 ∧ 0 < c then
        some (pyRound2 (((close_price : ℚ) - (c : ℚ)) / (c : ℚ) * 100))
      else none
  | none => none

/-- OHLC record returned by the market-data port (`{"Open": .., "High": ..,
"Low": .., "Close": ..}` with integer values). -/
structure Ohlc where
  openPrice : ℤ
  highPrice : ℤ
  lowPrice : ℤ
  closePrice : ℤ
  deriving DecidableEq, Repr

/-- Python `datetime.date` as produced by `pd.to_datetime(...).date()`. -/
structure PyDate where
  year : ℤ
  month : ℤ
  day : ℤ
  deriving DecidableEq, Repr

/-- StockInfo frozen dataclass from core/domain/models.py.  `listing_date` is
declared `str` there but the enricher explicitly checks it against `None`, so
it is modelled as `Option String`; the three allotment share counts are built
from `parse_to_int`, which returns an optional int. -/
structure StockInfo where
  name : String
  url : String
  market_segment : String
  sector : String
  revenue : Option ℤ
  profit_pre_tax : Option ℤ
  net_profit : Option ℤ
  capital : Option ℤ
  total_shares : Option ℤ
  par_value : Option ℤ
  desired_price_range : String
  confirmed_price : Option ℤ
  offering_amount : Option ℤ
  underwriter : String
  listing_date : Option String
  competition_rate : String
  emp_shares : Option ℤ
  inst_shares : Option ℤ
  retail_shares : Option ℤ
  tradable_shares_count : String
  tradable_shares_percent : String
  open_price : Option ℤ := none
  high_price : Option ℤ := none
  low_price : Option ℤ := none
  close_price : Option ℤ := none
  growth_rate : Option ℚ := none
  deriving DecidableEq, Repr

/-- Environment of external capabilities consumed by the enrichment code:
the ticker mapper port, the pandas date parser, the market-data port, and
Python's float literal parser (used by the price-text parsing paths).
An `Except.error` models the callee raising an exception. -/
structure Env where
  getTicker : String → Except Unit (Option String)
  toDatetime : String → Except Unit PyDate
  getOhlc : String → PyDate → Except Unit (Option Ohlc)
  pyFloat : String → Option ℚ

/-- Python `s.replace(".", "-")` for a single-character pattern. -/
def replaceDots (s : String) : String :=
  String.mk (s.data.map (fun c => if c = '.' then '-' else c))

/-- Python `s.strip()`: drop whitespace from both ends. -/
def pyStrip (s : String) : String :=
  String.mk (((s.data.dropWhile Char.isWhitespace).reverse.dropWhile Char.isWhitespace).reverse)

/-- Python truthiness of an optional string: `None` and `""` are falsy. -/
def strOptTruthy : Option String → Bool
  | none => false
  | some s => s ≠ ""

/-- Body of StockPriceEnricher.enrich_stock_info, inside the outer
`try`: ticker lookup, listing-date sentinel check, date parse (with its own
inner `try` whose handler returns the stock), OHLC lookup, growth-rate
computation, and `dataclasses.replace` of the five enrichment fields. -/
def enrich_stock_info_body (env : Env) (stock : StockInfo) : Except Unit StockInfo :=
  match env.getTicker stock.name with
  | Except.error e => Except.error e
  | Except.ok ticker =>
    if ¬ strOptTruthy ticker then Except.ok stock
    else
      match ticker with
      | none => Except.ok stock
      | some t =>
        if stock.listing_date = none ∨ stock.listing_date = some "N/A" ∨
            stock.listing_date = some "" then
          Except.ok stock
        else
          match stock.listing_date with
          | none => Except.ok stock
          | some ld =>
            match env.toDatetime (replaceDots ld) with
            | Except.error _ => Except.ok stock
            | Except.ok d =>
              match env.getOhlc t d with
              | Except.error e => Except.error e
              | Except.ok none => Except.ok stock
              | Except.ok (some o) =>
                Except.ok { stock with
                  open_price := some o.openPrice,
                  high_price := some o.highPrice,
                  low_price := some o.lowPrice,
                  close_price := some o.closePrice,
                  growth_rate := calculate_growth_rate o.closePrice stock.confirmed_price }

/-- StockPriceEnricher.enrich_stock_info: the body wrapped in the outer
`try/except` whose handler returns the original stock. -/
def enrich_stock_info (env : Env) (stock : StockInfo) : StockInfo :=
  match enrich_stock_info_body env stock with
  | Except.ok s => s
  | Except.error _ => stock

/-- DetailScraperAdapter._enrich_with_ohlc: the ticker/date/OHLC pipeline of
the detail scraper, with the growth-rate computation inlined
(`if stock.confirmed_price and stock.confirmed_price > 0`), wrapped in a
`try/except` returning the original stock. -/
def enrich_with_ohlc_body (env : Env) (stock : StockInfo) : Except Unit StockInfo :=
  match env.getTicker stock.name with
  | Except.error e => Except.error e
  | Except.ok ticker =>
    if ¬ strOptTruthy ticker then Except.ok stock
    else
      match ticker with
      | none => Except.ok stock
      | some t =>
        if stock.listing_date = none ∨ stock.listing_date = some "N/A" ∨
            stock.listing_date = some "" then
          Except.ok stock
        else
          match stock.listing_date with
          | none => Except.ok stock
          | some ld =>
            match env.toDatetime (replaceDots ld) with
            | Except.error _ => Except.ok stock
            | Except.ok d =>
              match env.getOhlc t d with
              | Except.error e => Except.error e
              | Except.ok none => Except.ok stock
              | Except.ok (some o) =>
                let growth : Option ℚ :=
                  match stock.confirmed_price with
                  | some c =>
                      if c ≠ 0 ∧ 0 < c then
                        some (pyRound2 (((o.closePrice : ℚ) - (c : ℚ)) / (c : ℚ) * 100))
                      else none
                  | none => none
                Except.ok { stock with
                  open_price := some o.openPrice,
                  high_price := some o.highPrice,
                  low_price := some o.lowPrice,
                  close_price := some o.closePrice,
                  growth_rate := growth }

/-- DetailScraperAdapter._enrich_with_ohlc with its outer exception handler. -/
def enrich_with_ohlc (env : Env) (stock : StockInfo) : StockInfo :=
  match enrich_with_ohlc_body env stock with
  | Except.ok s => s
  | Except.error _ => stock

/-! The table-finder strategy chain and the shareholder-table parse.
The four strategy objects live in infra.adapters.parsing.html.strategies and
are consumed only through their `find_table(page) -> table | None` interface,
so each is modelled as a function `Page → Option Table` over abstract `Page`
and `Table` types. -/

/-- DetailScraperAdapter._find_shareholder_table: iterate the strategy list in
order, returning the first strategy's table that is not `None`. -/
def find_table_chain {Page Table : Type} (strategies : List (Page → Option Table))
    (page : Page) : Option Table :=
  match strategies with
  | [] => none
  | s :: rest =>
    match s page with
    | some t => some t
    | none => find_table_chain rest page

/-- Strategy chain as wired in DetailScraperAdapter.__init__: TitleSibling,
TitleFollowing, HeaderContent, RowContent, in that order. -/
def find_shareholder_table {Page Table : Type} (titleSibling titleFollowing headerContent
    rowContent : Page → Option Table) (page : Page) : Option Table :=
  find_table_chain [titleSibling, titleFollowing, headerContent, rowContent] page

/-- Python substring containment `pat in s`. -/
def strContains (s pat : String) : Bool :=
  s.toList.tails.any (fun t => pat.toList.isPrefixOf t)

/-- Header cell test used by the tradable-volume column search:
both "유통가능" and "물량" occur in the cell text. -/
def isTradableHeaderCell (cell : String) : Bool :=
  strContains cell "유통가능" && strContains cell "물량"

/-- DetailScraperAdapter._find_tradable_column_in_header: scan the first five
rows in order, each row left to right, for a cell containing both keywords;
return its column index. -/
def find_tradable_column_in_header_go : List (List String) → Option ℕ
  | [] => none
  | row :: rest =>
    match row.findIdx? isTradableHeaderCell with
    | some c => some c
    | none => find_tradable_column_in_header_go rest

/-- DetailScraperAdapter._find_tradable_column_in_header over `min 5 len` rows. -/
def find_tradable_column_in_header (grid : List (List String)) : Option ℕ :=
  find_tradable_column_in_header_go (grid.take 5)

/-- DetailScraperAdapter._calculate_colspan_range while-loop: extend `j`
rightward as long as the next cell of the row repeats the anchor value. -/
def colspanEnd (row : List String) (v : String) (j : ℕ) : ℕ :=
  if h : j + 1 < row.length ∧ row.getD (j + 1) "" = v then colspanEnd row v (j + 1) else j
termination_by row.length - j
decreasing_by omega

/-- DetailScraperAdapter._calculate_colspan_range. -/
def calculate_colspan_range (grid : List (List String)) (row_idx col_idx : ℕ) : ℕ :=
  colspanEnd (grid.getD row_idx []) ((grid.getD row_idx []).getD col_idx "") col_idx

/-- Sub-header scan of _find_sub_columns: walk columns `col_idx..colspan_end`
of the row below the header, recording the last column containing "주식수" and
the last containing "비율"/"지분율" (an `elif` in the source, so a cell naming
both counts as the share column only); a column index beyond the row's length
raises IndexError, modelled as `Except.error`. -/
def find_sub_columns_go (nrow : List String) :
    List ℕ → Option ℕ → Option ℕ → Except Unit (Option ℕ × Option ℕ)
  | [], s, p => Except.ok (s, p)
  | c :: rest, s, p =>
    if c < nrow.length then
      let text := nrow.getD c ""
      if strContains text "주식수" then find_sub_columns_go nrow rest (some c) p
      else if strContains text "비율" || strContains text "지분율" then
        find_sub_columns_go nrow rest s (some c)
      else find_sub_columns_go nrow rest s p
    else Except.error ()

/-- DetailScraperAdapter._find_sub_columns. -/
def find_sub_columns (grid : List (List String)) (row_idx col_idx : ℕ) :
    Except Unit (List ℕ) :=
  let colspan_end := calculate_colspan_range grid row_idx col_idx
  let next_row := row_idx + 1
  if next_row ≥ grid.length then Except.ok [col_idx, col_idx + 1]
  else
    match find_sub_columns_go (grid.getD next_row [])
        (List.range' col_idx (colspan_end + 1 - col_idx)) none none with
    | Except.error e => Except.error e
    | Except.ok (some s, some p) => Except.ok [s, p]
    | Except.ok _ => Except.ok [col_idx, col_idx + 1]

/-- Row loop of _find_tradable_columns: for each of the first `min 5 len` row
indices, read `grid[i][header_col]` (IndexError when the row is shorter) and on
a keyword match delegate to _find_sub_columns; if no row matches, fall back to
`[header_col, header_col + 1]`. -/
def find_tradable_columns_go (grid : List (List String)) (hc : ℕ) :
    List ℕ → Except Unit (List ℕ)
  | [] => Except.ok [hc, hc + 1]
  | i :: rest =>
    let row := grid.getD i []
    if hc < row.length then
      if isTradableHeaderCell (row.getD hc "") then find_sub_columns grid i hc
      else find_tradable_columns_go grid hc rest
    else Except.error ()

/-- DetailScraperAdapter._find_tradable_columns. -/
def find_tradable_columns (grid : List (List String)) : Except Unit (List ℕ) :=
  match find_tradable_column_in_header grid with
  | none => Except.ok []
  | some hc => find_tradable_columns_go grid hc (List.range (min 5 grid.length))

/-- Modelled from the spec: the module infra.adapters.parsing.text.parsers is
absent from src; per section 4.4, clean_tradable_values strips stray
whitespace/units while preserving the two values as display strings. -/
def clean_tradable_values (share_text percent_text : String) : String × String :=
  (pyStrip share_text, pyStrip percent_text)

/-- Row predicate of _extract_tradable_values: the stripped share-count cell is
non-empty, not a dash, and contains at least one digit. -/
def validShareRow (share_col : ℕ) (row : List String) : Bool :=
  let share_val := pyStrip (row.getD share_col "")
  share_val ≠ "" && share_val ≠ "-" && share_val.toList.any Char.isDigit

/-- Bottom-up scan of _extract_tradable_values, given the rows already in
bottom-to-top order: skip rows too short to hold both columns, return the
cleaned cell pair of the first row whose stripped share cell passes
`validShareRow`. -/
def extract_tradable_values_go (share_col percent_col : ℕ) :
    List (List String) → String × String
  | [] => ("N/A", "N/A")
  | row :: rest =>
    if row.length ≤ max share_col percent_col then
      extract_tradable_values_go share_col percent_col rest
    else
      if validShareRow share_col row then
        clean_tradable_values (pyStrip (row.getD share_col ""))
          (pyStrip (row.getD percent_col ""))
      else extract_tradable_values_go share_col percent_col rest

/-- DetailScraperAdapter._extract_tradable_values: `for row_idx in
range(len(grid) - 1, -1, -1)` is the bottom-up scan over the reversed grid;
the two column indices are `cols[0]` and `cols[1]`. -/
def extract_tradable_values (grid : List (List String)) (share_col percent_col : ℕ) :
    String × String :=
  extract_tradable_values_go share_col percent_col grid.reverse

/-- Qualification test of the bottom-up scan: the row holds both the
share-count and the percentage cell (rows too short are skipped by the source)
and the stripped share-count cell is non-empty, not a dash, and contains a
digit. -/
def rowQualifies (share_col percent_col : ℕ) (row : List String) : Bool :=
  decide (max share_col percent_col < row.length) && validShareRow share_col row

/-- DetailScraperAdapter._parse_shareholder_table: strategy chain, grid build
(the TableGridBuilder lives outside src and is taken as an abstract function),
column search and value extraction, with the outer `try/except` mapping any
IndexError from the column search to ("N/A", "N/A"). -/
def parse_shareholder_table {Page Table : Type} (titleSibling titleFollowing headerContent
    rowContent : Page → Option Table) (buildGrid : Table → List (List String))
    (page : Page) : String × String :=
  match find_shareholder_table titleSibling titleFollowing headerContent rowContent page with
  | none => ("N/A", "N/A")
  | some t =>
    let grid := buildGrid t
    if grid.isEmpty then ("N/A", "N/A")
    else
      match find_tradable_columns grid with
      | Except.error _ => ("N/A", "N/A")
      | Except.ok [] => ("N/A", "N/A")
      | Except.ok cols => extract_tradable_values grid (cols.getD 0 0) (cols.getD 1 0)

/-! Orchestration of the detail sweep (scrape_details / _scrape_single). -/

/-- Capability bundle of _scrape_single: page navigation, waiting and the four
sub-table parses, producing one StockInfo or raising. -/
structure ScrapeEnv where
  scrapeRecord : String → String → Except Unit StockInfo

/-- DetailScraperAdapter._scrape_single: the whole body is inside `try`, any
exception yields `None`. -/
def scrape_single (env : ScrapeEnv) (name href : String) : Option StockInfo :=
  match env.scrapeRecord name href with
  | Except.ok s => some s
  | Except.error _ => none

/-- DetailScraperAdapter.scrape_details: per entry, _scrape_single, then the
optional OHLC enrichment (when both the ticker mapper and the market-data
provider were injected), then the success log line.  The log f-string formats
`stock.confirmed_price` with the `,` format spec, which raises TypeError when
the price is `None`; that call is outside every `try`, so the error propagates
(`Except.error`).  The pacing `time.sleep(0.3)` has no observable effect and is
omitted. -/
def scrape_details (env : ScrapeEnv) (hasLogger : Bool) (enrichEnv : Option Env) :
    List (String × String) → Except Unit (List StockInfo)
  | [] => Except.ok []
  | (name, href) :: rest =>
    match scrape_single env name href with
    | none => scrape_details env hasLogger enrichEnv rest
    | some stock0 =>
      let stock := match enrichEnv with
        | some e => enrich_with_ohlc e stock0
        | none => stock0
      if hasLogger && stock.confirmed_price.isNone then Except.error ()
      else
        match scrape_details env hasLogger enrichEnv rest with
        | Except.ok others => Except.ok (stock :: others)
        | Except.error e => Except.error e

/-! EnrichmentService.enrich_data and StockPriceEnricher.get_market_data.
Both consume a company name, a listing-date text and a confirmed-price text
cell; the five produced values (시가/고가/저가/종가/수익률) are modelled as the
MarketResult record. -/

/-- Five enrichment values of one row: the 시가/고가/저가/종가/수익률 cells. -/
structure MarketResult where
  mOpen : Option ℤ := none
  mHigh : Option ℤ := none
  mLow : Option ℤ := none
  mClose : Option ℤ := none
  mRate : Option ℚ := none
  deriving DecidableEq, Repr

/-- Python `s.replace(",", "")`: drop every comma. -/
def stripCommas (s : String) : String :=
  String.mk (s.toList.filter (fun c => c ≠ ','))

/-- StockPriceEnricher._parse_price: `int(float(str(v).replace(",", "")))`
guarded by `pd.notna(v) and v != ""`, with ValueError (an unparseable float
literal) mapped to `None`.  Inputs are plain strings here, so `pd.notna` is
always true. -/
def parse_price (env : Env) (price_val : String) : Option ℤ :=
  if price_val ≠ "" then
    match env.pyFloat (stripCommas price_val) with
    | some q => some (pyTrunc q)
    | none => none
  else none

/-- StockPriceEnricher.get_market_data: ticker lookup, the
`not listing_date_val or listing_date_val == "N/A"` skip, date parse (inner
`try`), OHLC lookup, then the four prices and — when `_parse_price` yields a
truthy int — the growth rate via _calculate_growth_rate.  Every skip and the
outer handler return the result dictionary as filled so far; an exception can
only occur before the prices are written, so all such paths return the
all-`None` record. -/
def get_market_data (env : Env) (stock_name listing_date_val confirmed_price_val : String) :
    MarketResult :=
  match env.getTicker stock_name with
  | Except.error _ => {}
  | Except.ok none => {}
  | Except.ok (some t) =>
    if t = "" then {}
    else if listing_date_val = "" ∨ listing_date_val = "N/A" then {}
    else
      match env.toDatetime (replaceDots listing_date_val) with
      | Except.error _ => {}
      | Except.ok d =>
        match env.getOhlc t d with
        | Except.error _ => {}
        | Except.ok none => {}
        | Except.ok (some o) =>
          let base : MarketResult :=
            { mOpen := some o.openPrice, mHigh := some o.highPrice,
              mLow := some o.lowPrice, mClose := some o.closePrice }
          match parse_price env confirmed_price_val with
          | some n =>
              if n ≠ 0 then
                { base with mRate := calculate_growth_rate o.closePrice (some n) }
              else base
          | none => base

/-- EnrichmentService.enrich_data, restricted to the five values computed for
one row from its 종목명/상장일/확정공모가 cells (the claims fix these three
inputs; the DataFrame bookkeeping around them is not modelled).  Differences
from get_market_data kept faithfully: the empty-name skip, the
`pd.isna(v) or v == "N/A"` listing-date skip (an empty string is NOT skipped
and goes to the date parse), and the growth rate computed from the full float
value of the confirmed price (no int truncation), guarded by
`confirmed_price > 0`.  The per-row `except` handler leaves the row's values
as set so far; every raising step precedes the price writes. -/
def enrich_data_row (env : Env) (stock_name listing_date_val confirmed_price_val : String) :
    MarketResult :=
  if stock_name = "" then {}
  else
    match env.getTicker stock_name with
    | Except.error _ => {}
    | Except.ok none => {}
    | Except.ok (some t) =>
      if t = "" then {}
      else if listing_date_val = "N/A" then {}
      else
        match env.toDatetime (replaceDots listing_date_val) with
        | Except.error _ => {}
        | Except.ok d =>
          match env.getOhlc t d with
          | Except.error _ => {}
          | Except.ok none => {}
          | Except.ok (some o) =>
            let base : MarketResult :=
              { mOpen := some o.openPrice, mHigh := some o.highPrice,
                mLow := some o.lowPrice, mClose := some o.closePrice }
            if confirmed_price_val ≠ "" then
              match env.pyFloat (stripCommas confirmed_price_val) with
              | some q =>
                  if 0 < q then
                    { base with
                      mRate := some (pyRound2 (((o.closePrice : ℚ) - q) / q * 100)) }
                  else base
              | none => base
            else base

/-! ExcelExporter.export.  A sheet is a list of rows; a row carries its 종목명
(name), its 상장일 (listing date, compared as text) and an opaque payload for
the remaining columns.  The workbook and the in-memory `data` dict are
year-keyed association lists; sheet names are modelled by their parsed year
(the `"2024년" -> 2024` parse of the source is absorbed into the keys). -/

/-- Row of a yearly sheet: company name, listing-date text, rest of the row. -/
structure XRow where
  rname : String
  listingDate : String
  payload : String
  deriving DecidableEq, Repr

/-- Yearly sheet (DataFrame): a list of rows. -/
abbrev Sheet := List XRow

/-- Year-keyed association list (the `data` dict / the workbook's sheets). -/
abbrev YearMap := List (ℤ × Sheet)

/-- Dictionary lookup `data[year]` / `year in data` (first matching key). -/
def lookupYear (m : YearMap) (y : ℤ) : Option Sheet :=
  (m.find? (fun p => p.1 = y)).map (fun p => p.2)

/-- Dictionary assignment `data[year] = s`: replace the binding in place when
the key exists, append it otherwise. -/
def setYear : YearMap → ℤ → Sheet → YearMap
  | [], y, s => [(y, s)]
  | p :: rest, y, s => if p.1 = y then (y, s) :: rest else p :: setYear rest y s

/-- pandas `drop_duplicates(subset=['종목명'], keep='last')`: keep a row iff no
later row has the same name, preserving the order of the kept rows. -/
def dropDuplicatesKeepLast : Sheet → Sheet
  | [] => []
  | r :: rs =>
    if rs.any (fun x => x.rname = r.rname) then dropDuplicatesKeepLast rs
    else r :: dropDuplicatesKeepLast rs

/-- Row order used by `sort_values(by='상장일', ascending=True)`. -/
def dateLe (a b : XRow) : Prop := a.listingDate ≤ b.listingDate

instance : DecidableRel dateLe := fun a b =>
  inferInstanceAs (Decidable (a.listingDate ≤ b.listingDate))

instance : IsTotal XRow dateLe := ⟨fun a b => le_total a.listingDate b.listingDate⟩

instance : IsTrans XRow dateLe := ⟨fun _ _ _ h h2 => le_trans h h2⟩

/-- pandas `df.sort_values(by='상장일', ascending=True)`.  The sort kind of the
source is an unstable quicksort; the theorems below rely only on sortedness
and on the rows being a permutation of the input, which hold for any sort. -/
def sortByListingDate (s : Sheet) : Sheet :=
  s.insertionSort dateLe

/-- Merging step of ExcelExporter.export for one sheet `p` of the existing
workbook: when `p`'s year is in the current batch, concatenate the existing
rows in front of the new rows and deduplicate by 종목명 keeping the last row;
otherwise carry the existing sheet over unchanged. -/
def mergeStep (acc : YearMap) (p : ℤ × Sheet) : YearMap :=
  match lookupYear acc p.1 with
  | some newDf => setYear acc p.1 (dropDuplicatesKeepLast (p.2 ++ newDf))
  | none => setYear acc p.1 p.2

/-- Merging loop of ExcelExporter.export over every sheet of the existing
workbook. -/
def mergeExisting (data : YearMap) (fileSheets : YearMap) : YearMap :=
  fileSheets.foldl mergeStep data

/-- Year keys of a workbook / data dict. -/
def yearKeys (m : YearMap) : List ℤ :=
  m.map Prod.fst

/-- Company names (the 종목명 column) of a sheet's rows. -/
def rowNames (s : Sheet) : List String :=
  s.map XRow.rname

/-- Key order of the final `sorted(data.items())` sheet write. -/
def yearLe (a b : ℤ × Sheet) : Prop := a.1 ≤ b.1

instance : DecidableRel yearLe := fun a b => inferInstanceAs (Decidable (a.1 ≤ b.1))

instance : IsTotal (ℤ × Sheet) yearLe := ⟨fun a b => le_total a.1 b.1⟩

instance : IsTrans (ℤ × Sheet) yearLe := ⟨fun _ _ _ h h2 => le_trans h h2⟩

/-- ExcelExporter.export: merge with the existing workbook when one exists,
sort every sheet's rows by listing date ascending, and write the sheets in
ascending year order.  The result is the written workbook. -/
def excelExport (fileSheets : Option YearMap) (data : YearMap) : YearMap :=
  let merged := match fileSheets with
    | some fs => mergeExisting data fs
    | none => data
  let sorted := merged.map (fun p => (p.1, sortByListingDate p.2))
  sorted.insertionSort yearLe

/-- ExcelExporter.export including the `if not data: return` early exit: the
workbook content after the call (an absent file stays absent when the batch is
empty). -/
def excelExportFile (fileSheets : Option YearMap) (data : YearMap) : Option YearMap :=
  if data.isEmpty then fileSheets else some (excelExport fileSheets data)

/-! DateCalculator.calculate. -/

/-- DateRange dataclass from core.ports.utility_ports. -/
structure DateRange where
  year : ℤ
  start_month : ℤ
  end_month : ℤ
  day_limit : ℤ
  deriving DecidableEq, Repr

/-- Python `range(a, b)` over integers. -/
def intRange (a b : ℤ) : List ℤ :=
  (List.range (b - a).toNat).map (fun i : ℕ => a + (i : ℤ))

/-- DateCalculator.calculate: one DateRange per year of
`range(start_year, current_year + 1)`; the current year is bounded by the
reference date's month and day, past years get months 1..12 and day limit 32.
The `ranges` dict (distinct keys, inserted in loop order) is the association
list produced by the loop. -/
def dateCalculate (start_year : ℤ) (ref : PyDate) : List (ℤ × DateRange) :=
  (intRange start_year (ref.year + 1)).map
    (fun y =>
      (y, if y = ref.year then
            { year := y, start_month := 1, end_month := ref.month, day_limit := ref.day }
          else
            { year := y, start_month := 1, end_month := 12, day_limit := 32 }))

/-- Dictionary lookup in the calculator's result. -/
def lookupRange (m : List (ℤ × DateRange)) (y : ℤ) : Option DateRange :=
  (m.find? (fun p => p.1 = y)).map (fun p => p.2)

/-! PyKrxAdapter.get_ohlc. -/

/-- Row of the pykrx OHLCV DataFrame: the 시가/고가/저가/종가 columns. -/
structure KrxRow where
  siga : ℤ
  goga : ℤ
  jeoga : ℤ
  jongga : ℤ
  deriving DecidableEq, Repr

/-- Capability of `pykrx.stock.get_market_ohlcv(start, end, ticker)`: the
DataFrame is its list of rows; `Except.error` models the library raising. -/
structure KrxEnv where
  getMarketOhlcv : String → String → String → Except Unit (List KrxRow)

/-- Python `"%02d"`-style zero padding to two digits for month and day. -/
def pad2 (n : ℤ) : String :=
  if n < 10 then "0" ++ toString n else toString n

/-- `target_date.strftime("%Y%m%d")` for the dates in scope (four-digit year). -/
def yyyymmdd (d : PyDate) : String :=
  toString d.year ++ pad2 d.month ++ pad2 d.day

/-- PyKrxAdapter.get_ohlc: fetch the single-day DataFrame, return `None` when
the fetch raises (outer `try/except`), when the frame is empty, or when the
first row has both 시가 = 0 and 종가 = 0 (halted trading); otherwise the four
prices of the first row as the Open/High/Low/Close record. -/
def pykrx_get_ohlc (env : KrxEnv) (ticker : String) (target_date : PyDate) : Option Ohlc :=
  let date_str := yyyymmdd target_date
  match env.getMarketOhlcv date_str date_str ticker with
  | Except.error _ => none
  | Except.ok [] => none
  | Except.ok (row :: _) =>
    if row.siga = 0 ∧ row.jongga = 0 then none
    else some { openPrice := row.siga, highPrice := row.goga,
                lowPrice := row.jeoga, closePrice := row.jongga }

/-- dataclasses.replace of the five enrichment fields: the record copy made on
successful enrichment. -/
def withOhlc (stock : StockInfo) (o : Ohlc) (g : Option ℚ) : StockInfo :=
  { stock with
    open_price := some o.openPrice, high_price := some o.highPrice,
    low_price := some o.lowPrice, close_price := some o.closePrice,
    growth_rate := g }

/-- Equality of the five enrichment fields of two StockInfo values. -/
def enrichFieldsEq (a b : StockInfo) : Prop :=
  a.open_price = b.open_price ∧ a.high_price = b.high_price ∧
  a.low_price = b.low_price ∧ a.close_price = b.close_price ∧
  a.growth_rate = b.growth_rate

/-- Equality of every non-enrichment field of two StockInfo values. -/
def baseFieldsEq (a b : StockInfo) : Prop :=
  a.name = b.name ∧ a.url = b.url ∧ a.market_segment = b.market_segment ∧
  a.sector = b.sector ∧ a.revenue = b.revenue ∧ a.profit_pre_tax = b.profit_pre_tax ∧
  a.net_profit = b.net_profit ∧ a.capital = b.capital ∧ a.total_shares = b.total_shares ∧
  a.par_value = b.par_value ∧ a.desired_price_range = b.desired_price_range ∧
  a.confirmed_price = b.confirmed_price ∧ a.offering_amount = b.offering_amount ∧
  a.underwriter = b.underwriter ∧ a.listing_date = b.listing_date ∧
  a.competition_rate = b.competition_rate ∧ a.emp_shares = b.emp_shares ∧
  a.inst_shares = b.inst_shares ∧ a.retail_shares = b.retail_shares ∧
  a.tradable_shares_count = b.tradable_shares_count ∧
  a.tradable_shares_percent = b.tradable_shares_percent

/-! Sample inputs used by counterexamples and witnesses. -/

/-- Sample scraped record whose confirmed price is absent (an "N/A" offering
cell parsed by parse_to_int), with all enrichment fields at their defaults. -/
def sampleStock : StockInfo :=
  { name := "TestStock", url := "http://test.com", market_segment := "KOSDAQ",
    sector := "Tech", revenue := some 100, profit_pre_tax := some 10,
    net_profit := some 8, capital := some 50, total_shares := some 1000,
    par_value := some 500, desired_price_range := "1000~2000",
    confirmed_price := none, offering_amount := none, underwriter := "TestSec",
    listing_date := some "2023.01.01", competition_rate := "100:1",
    emp_shares := some 100, inst_shares := some 500, retail_shares := some 400,
    tradable_shares_count := "200", tradable_shares_percent := "20%" }

/-- Environment in which every lookup succeeds: the ticker resolves, the date
parses, and the OHLC of the listing day is (2000, 2200, 1900, 2100). -/
def happyEnv : Env :=
  { getTicker := fun _ => Except.ok (some "123456"),
    toDatetime := fun _ => Except.ok { year := 2023, month := 1, day := 1 },
    getOhlc := fun _ _ => Except.ok (some
      { openPrice := 2000, highPrice := 2200, lowPrice := 1900, closePrice := 2100 }),
    pyFloat := fun _ => none }

/-- Scrape environment in which every detail page yields `sampleStock`. -/
def sampleScrapeEnv : ScrapeEnv :=
  { scrapeRecord := fun _ _ => Except.ok sampleStock }

/-- Market-data environment for the get_market_data / enrich_data comparison:
lookups succeed and the Python float parser is modelled on the one literal
"1500.5" (after comma stripping) as the exact rational 3001/2. -/
def floatEnv : Env :=
  { getTicker := fun _ => Except.ok (some "123456"),
    toDatetime := fun _ => Except.ok { year := 2023, month := 1, day := 1 },
    getOhlc := fun _ _ => Except.ok (some
      { openPrice := 2000, highPrice := 2200, lowPrice := 1900, closePrice := 2100 }),
    pyFloat := fun s => if s = "1500.5" then some (3001 / 2) else
      if s = "1500" then some 1500 else none }

/-- Sample record whose listing date is the "N/A" sentinel. -/
def naStock : StockInfo :=
  { sampleStock with
    listing_date := some "N/A" }

/-- Environment in which the ticker lookup finds nothing. -/
def noTickerEnv : Env :=
  { happyEnv with
    getTicker := fun _ => Except.ok none }

/-- Export witness rows: two versions of the same company and one other. -/
def rowA : XRow :=
  { rname := "AlphaCo", listingDate := "2024.03.05", payload := "v0" }

/-- Newer row for the same company as rowA. -/
def rowA2 : XRow :=
  { rname := "AlphaCo", listingDate := "2024.03.05", payload := "v1" }

/-- Row of a different company. -/
def rowB : XRow :=
  { rname := "BetaCo", listingDate := "2024.01.10", payload := "w0" }

/-- Existing workbook for the export witness: a 2023 sheet not in the current
batch and a 2024 sheet that is. -/
def wFile : YearMap := [(2023, [rowB]), (2024, [rowA])]

/-- Current batch for the export witness. -/
def wData : YearMap := [(2024, [rowA2, rowB])]

/-- Market-data environment whose pykrx fetch returns one normal row. -/
def krxOkEnv : KrxEnv :=
  { getMarketOhlcv := fun _ _ _ => Except.ok
      [{ siga := 2000, goga := 2200, jeoga := 1900, jongga := 2100 }] }

/-- Market-data environment whose pykrx fetch raises. -/
def krxErrEnv : KrxEnv :=
  { getMarketOhlcv := fun _ _ _ => Except.error () }

/-!
Theorems.
-/

/-- C1: _calculate_growth_rate returns `None` unless the confirmed price is
present and strictly greater than 0, and otherwise the exact value of
`(close - confirmed) / confirmed * 100` rounded (half-to-even, Python `round`)
to two decimal places; in particular 2100 against 1500 gives 40.0, a confirmed
price of 0 gives `None`, and an absent confirmed price gives `None`. -/
theorem C1_growth_rate (close_price c : ℤ) :
    calculate_growth_rate close_price (some c) =
      (if 0 < c then
        some (pyRound2 (((close_price : ℚ) - (c : ℚ)) / (c : ℚ) * 100))
      else none) ∧
    calculate_growth_rate close_price none = none ∧
    calculate_growth_rate close_price (some 0) = none ∧
    calculate_growth_rate 2100 (some 1500) = some 40 := by
  refine ⟨?_, rfl, ?_, ?_⟩
  · by_cases h : 0 < c
    · simp [calculate_growth_rate, h, ne_of_gt h]
    · simp [calculate_growth_rate, h]
  · simp [calculate_growth_rate]
  · norm_num [calculate_growth_rate, pyRound2, pyRound0]

/-- Membership in the integer range `range(a, b)`. -/
theorem mem_intRange {a b y : ℤ} : y ∈ intRange a b ↔ a ≤ y ∧ y < b := by
  unfold intRange
  rw [List.mem_map]
  constructor
  · rintro ⟨i, hi, rfl⟩
    rw [List.mem_range] at hi
    omega
  · intro h
    refine ⟨(y - a).toNat, ?_, ?_⟩
    · rw [List.mem_range]
      omega
    · omega

/-- Integer ranges have no duplicates. -/
theorem intRange_nodup (a b : ℤ) : (intRange a b).Nodup := by
  unfold intRange
  refine List.Nodup.map ?_ (List.nodup_range _)
  intro i j h
  have h2 : a + (i : ℤ) = a + (j : ℤ) := h
  omega

/-- Lookup in an association list built as the graph of a function. -/
theorem lookupRange_graph (g : ℤ → DateRange) (l : List ℤ) (z : ℤ) :
    lookupRange (l.map (fun y => (y, g y))) z = if z ∈ l then some (g z) else none := by
  induction l with
  | nil => simp [lookupRange]
  | cons a l ih =>
    by_cases h : a = z
    · subst h
      simp only [List.map_cons, lookupRange]
      rw [List.find?_cons_of_pos _ (by simp)]
      simp
    · have h1 : lookupRange ((a :: l).map (fun y => (y, g y))) z =
          lookupRange (l.map (fun y => (y, g y))) z := by
        simp only [List.map_cons, lookupRange]
        rw [List.find?_cons_of_neg _ (by simp [h])]
      rw [h1, ih]
      simp [List.mem_cons, h, Ne.symm h]

/-- Closed form of the calculator's result as a year-indexed lookup. -/
theorem lookupRange_dateCalculate (s : ℤ) (ref : PyDate) (y : ℤ) :
    lookupRange (dateCalculate s ref) y =
      if s ≤ y ∧ y ≤ ref.year then
        some (if y = ref.year then
                { year := y, start_month := 1, end_month := ref.month, day_limit := ref.day }
              else
                { year := y, start_month := 1, end_month := 12, day_limit := 32 })
      else none := by
  unfold dateCalculate
  rw [lookupRange_graph]
  by_cases h : s ≤ y ∧ y ≤ ref.year
  · rw [if_pos (mem_intRange.mpr (by omega)), if_pos h]
  · rw [if_neg (fun hm => h (by have h2 := mem_intRange.mp hm; omega)), if_neg h]

/-- C9: for a start year not after the reference year, the calculator returns
exactly one DateRange per year from the start year through the reference year;
a past year's range is months 1..12 with a day limit (32) permitting every
valid day of a month, and the reference year's range runs from month 1 to the
reference month with the reference day as day limit. -/
theorem C9_date_ranges (start_year : ℤ) (ref : PyDate) (hstart : start_year ≤ ref.year) :
    (∀ y, (lookupRange (dateCalculate start_year ref) y).isSome ↔
        (start_year ≤ y ∧ y ≤ ref.year)) ∧
    ((dateCalculate start_year ref).map Prod.fst).Nodup ∧
    (∀ y, start_year ≤ y → y < ref.year →
        lookupRange (dateCalculate start_year ref) y =
          some { year := y, start_month := 1, end_month := 12, day_limit := 32 } ∧
        ∀ r, lookupRange (dateCalculate start_year ref) y = some r →
          ∀ d : ℤ, 1 ≤ d → d ≤ 31 → d ≤ r.day_limit) ∧
    lookupRange (dateCalculate start_year ref) ref.year =
      some { year := ref.year, start_month := 1, end_month := ref.month,
             day_limit := ref.day } := by
  refine ⟨?_, ?_, ?_, ?_⟩
  · intro y
    rw [lookupRange_dateCalculate]
    by_cases h : start_year ≤ y ∧ y ≤ ref.year
    · simp [h]
    · simp [h]
  · unfold dateCalculate
    rw [List.map_map]
    refine List.Nodup.map ?_ (intRange_nodup start_year (ref.year + 1))
    intro i j hij
    exact hij
  · intro y h1 h2
    have heq : lookupRange (dateCalculate start_year ref) y =
        some { year := y, start_month := 1, end_month := 12, day_limit := 32 } := by
      rw [lookupRange_dateCalculate, if_pos (by omega)]
      rw [if_neg (by omega)]
    refine ⟨heq, ?_⟩
    intro r hr d hd1 hd2
    rw [heq] at hr
    cases hr
    show d ≤ (32 : ℤ)
    omega
  · rw [lookupRange_dateCalculate, if_pos (by omega), if_pos rfl]

/-- C9 witness: start year 2023 against the reference date 2025-11-26. -/
theorem C9_witness :
    lookupRange (dateCalculate 2023 { year := 2025, month := 11, day := 26 }) 2024 =
      some { year := 2024, start_month := 1, end_month := 12, day_limit := 32 } ∧
    lookupRange (dateCalculate 2023 { year := 2025, month := 11, day := 26 }) 2025 =
      some { year := 2025, start_month := 1, end_month := 11, day_limit := 26 } :=
  ⟨((C9_date_ranges 2023 { year := 2025, month := 11, day := 26 } (by norm_num)).2.2.1
      2024 (by norm_num) (by norm_num)).1,
   (C9_date_ranges 2023 { year := 2025, month := 11, day := 26 } (by norm_num)).2.2.2⟩

/-- C10: PyKrxAdapter.get_ohlc is a total function (any exception of the
underlying fetch is caught) returning `None` when the fetch raises, when the
DataFrame is empty, and when the first row has open = 0 and close = 0; in
every other case it returns the record holding all four prices of the first
row as integers. -/
theorem C10_pykrx_ohlc (env : KrxEnv) (ticker : String) (d : PyDate) :
    (∀ e, env.getMarketOhlcv (yyyymmdd d) (yyyymmdd d) ticker = Except.error e →
        pykrx_get_ohlc env ticker d = none) ∧
    (env.getMarketOhlcv (yyyymmdd d) (yyyymmdd d) ticker = Except.ok [] →
        pykrx_get_ohlc env ticker d = none) ∧
    (∀ row rest,
        env.getMarketOhlcv (yyyymmdd d) (yyyymmdd d) ticker = Except.ok (row :: rest) →
        (row.siga = 0 ∧ row.jongga = 0 → pykrx_get_ohlc env ticker d = none) ∧
        (¬ (row.siga = 0 ∧ row.jongga = 0) →
            pykrx_get_ohlc env ticker d =
              some { openPrice := row.siga, highPrice := row.goga,
                     lowPrice := row.jeoga, closePrice := row.jongga })) := by
  refine ⟨?_, ?_, ?_⟩
  · intro e he
    simp [pykrx_get_ohlc, he]
  · intro he
    simp [pykrx_get_ohlc, he]
  · intro row rest he
    constructor
    · intro hz
      simp [pykrx_get_ohlc, he, hz]
    · intro hz
      simp [pykrx_get_ohlc, he, hz]

/-- C10 witness: a normal row is returned in full, a raising fetch gives `None`. -/
theorem C10_witness :
    pykrx_get_ohlc krxOkEnv "005930" { year := 2023, month := 1, day := 2 } =
      some { openPrice := 2000, highPrice := 2200, lowPrice := 1900, closePrice := 2100 } ∧
    pykrx_get_ohlc krxErrEnv "005930" { year := 2023, month := 1, day := 2 } = none :=
  ⟨((C10_pykrx_ohlc krxOkEnv "005930" { year := 2023, month := 1, day := 2 }).2.2
        { siga := 2000, goga := 2200, jeoga := 1900, jongga := 2100 } [] rfl).2
      (by norm_num),
   (C10_pykrx_ohlc krxErrEnv "005930" { year := 2023, month := 1, day := 2 }).1 () rfl⟩

/-- C4: the shareholder-table finder tries the strategies in the fixed order
title-sibling, title-following, header-content, row-content and returns the
first strategy's table; in particular a table found only by the row-content
strategy is still returned, and when every strategy yields none the
shareholder parse returns ("N/A", "N/A"). -/
theorem C4_strategy_chain {Page Table : Type}
    (titleSibling titleFollowing headerContent rowContent : Page → Option Table)
    (buildGrid : Table → List (List String)) (page : Page) :
    (∀ t, titleSibling page = some t →
        find_shareholder_table titleSibling titleFollowing headerContent rowContent page =
          some t) ∧
    (titleSibling page = none → ∀ t, titleFollowing page = some t →
        find_shareholder_table titleSibling titleFollowing headerContent rowContent page =
          some t) ∧
    (titleSibling page = none → titleFollowing page = none →
        ∀ t, headerContent page = some t →
        find_shareholder_table titleSibling titleFollowing headerContent rowContent page =
          some t) ∧
    (titleSibling page = none → titleFollowing page = none → headerContent page = none →
        find_shareholder_table titleSibling titleFollowing headerContent rowContent page =
          rowContent page) ∧
    (titleSibling page = none → titleFollowing page = none → headerContent page = none →
        rowContent page = none →
        parse_shareholder_table titleSibling titleFollowing headerContent rowContent
          buildGrid page = ("N/A", "N/A")) := by
  refine ⟨?_, ?_, ?_, ?_, ?_⟩
  · intro t h1
    simp [find_shareholder_table, find_table_chain, h1]
  · intro h1 t h2
    simp [find_shareholder_table, find_table_chain, h1, h2]
  · intro h1 h2 t h3
    simp [find_shareholder_table, find_table_chain, h1, h2, h3]
  · intro h1 h2 h3
    cases h4 : rowContent page <;>
      simp [find_shareholder_table, find_table_chain, h1, h2, h3, h4]
  · intro h1 h2 h3 h4
    simp [parse_shareholder_table, find_shareholder_table, find_table_chain, h1, h2, h3, h4]

/-- C4 witness: a page matched only by the row-content strategy still yields
its table, and a page matched by no strategy parses to ("N/A", "N/A"). -/
theorem C4_witness :
    @find_shareholder_table Unit Unit (fun _ => none) (fun _ => none) (fun _ => none)
        (fun _ => some ()) () = some () ∧
    @parse_shareholder_table Unit Unit (fun _ => none) (fun _ => none) (fun _ => none)
        (fun _ => none) (fun _ => [["x"]]) () = ("N/A", "N/A") := by
  constructor
  · exact ((@C4_strategy_chain Unit Unit (fun _ => none) (fun _ => none) (fun _ => none)
      (fun _ => some ()) (fun _ => [["x"]]) ()).2.2.2.1 rfl rfl rfl).trans rfl
  · exact (@C4_strategy_chain Unit Unit (fun _ => none) (fun _ => none) (fun _ => none)
      (fun _ => none) (fun _ => [["x"]]) ()).2.2.2.2 rfl rfl rfl rfl

/-- Scan result when no row qualifies. -/
theorem extract_go_none (share_col percent_col : ℕ) (l : List (List String))
    (h : ∀ row ∈ l, rowQualifies share_col percent_col row = false) :
    extract_tradable_values_go share_col percent_col l = ("N/A", "N/A") := by
  induction l with
  | nil => rfl
  | cons row rest ih =>
    have hrow := h row (List.mem_cons_self row rest)
    have hrest := ih (fun r hr => h r (List.mem_cons_of_mem _ hr))
    unfold extract_tradable_values_go
    by_cases hlen : row.length ≤ max share_col percent_col
    · rw [if_pos hlen]
      exact hrest
    · rw [if_neg hlen]
      have hmax : max share_col percent_col < row.length := Nat.lt_of_not_le hlen
      have hv : validShareRow share_col row = false := by
        unfold rowQualifies at hrow
        simpa [hmax] using hrow
      rw [if_neg (by simp [hv])]
      exact hrest

/-- Scan result at the first qualifying row. -/
theorem extract_go_find (share_col percent_col : ℕ) (l : List (List String))
    (row : List String) (h : l.find? (rowQualifies share_col percent_col) = some row) :
    extract_tradable_values_go share_col percent_col l =
      clean_tradable_values (pyStrip (row.getD share_col ""))
        (pyStrip (row.getD percent_col "")) := by
  induction l with
  | nil => simp [List.find?] at h
  | cons r rest ih =>
    by_cases hq : rowQualifies share_col percent_col r = true
    · rw [List.find?_cons_of_pos _ hq] at h
      cases h
      unfold rowQualifies at hq
      rw [Bool.and_eq_true] at hq
      obtain ⟨hmax, hv⟩ := hq
      rw [decide_eq_true_eq] at hmax
      unfold extract_tradable_values_go
      rw [if_neg (by omega), if_pos hv]
    · have hq0 : rowQualifies share_col percent_col r = false := by
        revert hq
        cases rowQualifies share_col percent_col r <;> simp
      rw [List.find?_cons_of_neg _ (by simp [hq0])] at h
      have hrec := ih h
      unfold extract_tradable_values_go
      by_cases hlen : r.length ≤ max share_col percent_col
      · rw [if_pos hlen]
        exact hrec
      · rw [if_neg hlen]
        have hmax : max share_col percent_col < r.length := Nat.lt_of_not_le hlen
        have hv : validShareRow share_col r = false := by
          unfold rowQualifies at hq0
          simpa [hmax] using hq0
        rw [if_neg (by simp [hv])]
        exact hrec

/-- C5: _extract_tradable_values scans rows bottom-up (the first match in the
reversed grid) and returns the cleaned (share cell, percentage cell) pair of
the first row holding both cells whose stripped share cell is non-empty, not a
dash and contains a digit; when no row qualifies it returns ("N/A", "N/A"). -/
theorem C5_extract_tradable (grid : List (List String)) (share_col percent_col : ℕ) :
    ((∀ row ∈ grid, rowQualifies share_col percent_col row = false) →
        extract_tradable_values grid share_col percent_col = ("N/A", "N/A")) ∧
    (∀ row, grid.reverse.find? (rowQualifies share_col percent_col) = some row →
        extract_tradable_values grid share_col percent_col =
          clean_tradable_values (pyStrip (row.getD share_col ""))
            (pyStrip (row.getD percent_col ""))) := by
  constructor
  · intro h
    exact extract_go_none share_col percent_col grid.reverse
      (fun r hr => h r (List.mem_reverse.mp hr))
  · intro row h
    exact extract_go_find share_col percent_col grid.reverse row h

/-- C5 witness: the bottom-most valid row (above a dash row) is returned, and
an all-invalid grid yields ("N/A", "N/A"). -/
theorem C5_witness :
    extract_tradable_values [["h1", "h2"], ["123,456", "45.2%"], ["-", "-"]] 0 1 =
      ("123,456", "45.2%") ∧
    extract_tradable_values [["-", ""]] 0 1 = ("N/A", "N/A") := by
  constructor
  · have h := (C5_extract_tradable [["h1", "h2"], ["123,456", "45.2%"], ["-", "-"]] 0 1).2
      ["123,456", "45.2%"] (by decide)
    rw [h]
    decide
  · exact (C5_extract_tradable [["-", ""]] 0 1).1 (by decide)

/-- Shape dichotomy of the enrichment body: an `ok` result is either the
original stock or the stock with the five enrichment fields replaced from a
fetched OHLC record. -/
theorem enrich_body_ok (env : Env) (stock s : StockInfo)
    (h : enrich_stock_info_body env stock = Except.ok s) :
    s = stock ∨ ∃ o : Ohlc,
      s = withOhlc stock o (calculate_growth_rate o.closePrice stock.confirmed_price) := by
  unfold enrich_stock_info_body at h
  repeat' split at h
  all_goals first
    | exact Except.noConfusion h
    | (injection h with h2; subst h2; left; rfl)
    | (injection h with h2; subst h2; right; exact ⟨_, rfl⟩)

/-- Dichotomy of enrich_stock_info: unchanged record or full replacement. -/
theorem enrich_stock_info_cases (env : Env) (stock : StockInfo) :
    enrich_stock_info env stock = stock ∨
    ∃ o : Ohlc, enrich_stock_info env stock =
      withOhlc stock o (calculate_growth_rate o.closePrice stock.confirmed_price) := by
  unfold enrich_stock_info
  cases h : enrich_stock_info_body env stock with
  | error e => left; rfl
  | ok s => simpa using enrich_body_ok env stock s h

/-- Presence of the computed growth rate. -/
theorem calculate_growth_rate_isSome (close_price : ℤ) (cp : Option ℤ) :
    (calculate_growth_rate close_price cp).isSome = true ↔
      ∃ c, cp = some c ∧ 0 < c := by
  cases cp with
  | none => simp [calculate_growth_rate]
  | some c =>
    by_cases h : 0 < c
    · simp [calculate_growth_rate, h, ne_of_gt h]
    · simp [calculate_growth_rate, h]

/-- C2 corrected: enrichment never mutates the input (all non-enrichment
fields of the result equal the input's), and the result's enrichment fields
are either exactly the input's or the four price fields are all populated
together, with the growth rate populated exactly when the input's confirmed
price is present and strictly positive. -/
theorem C2_amended (env : Env) (stock : StockInfo) :
    baseFieldsEq (enrich_stock_info env stock) stock ∧
    (enrichFieldsEq (enrich_stock_info env stock) stock ∨
      ((enrich_stock_info env stock).open_price.isSome = true ∧
       (enrich_stock_info env stock).high_price.isSome = true ∧
       (enrich_stock_info env stock).low_price.isSome = true ∧
       (enrich_stock_info env stock).close_price.isSome = true ∧
       ((enrich_stock_info env stock).growth_rate.isSome = true ↔
          ∃ c, stock.confirmed_price = some c ∧ 0 < c))) := by
  rcases enrich_stock_info_cases env stock with h | ⟨o, h⟩
  · rw [h]
    exact ⟨⟨rfl, rfl, rfl, rfl, rfl, rfl, rfl, rfl, rfl, rfl, rfl, rfl, rfl, rfl, rfl,
      rfl, rfl, rfl, rfl, rfl, rfl⟩, Or.inl ⟨rfl, rfl, rfl, rfl, rfl⟩⟩
  · rw [h]
    refine ⟨⟨rfl, rfl, rfl, rfl, rfl, rfl, rfl, rfl, rfl, rfl, rfl, rfl, rfl, rfl, rfl,
      rfl, rfl, rfl, rfl, rfl, rfl⟩, Or.inr ⟨rfl, rfl, rfl, rfl, ?_⟩⟩
    exact calculate_growth_rate_isSome o.closePrice stock.confirmed_price

/-- C2 counterexample: with a resolvable ticker, a parseable listing date and
an available OHLC but an absent confirmed price, the enriched record has the
four price fields populated and the growth rate absent — a proper subset of
the five enrichment fields, refuting "all five populated or all five absent". -/
theorem C2_counterexample :
    ¬ (((enrich_stock_info happyEnv sampleStock).open_price.isSome = true ∧
        (enrich_stock_info happyEnv sampleStock).high_price.isSome = true ∧
        (enrich_stock_info happyEnv sampleStock).low_price.isSome = true ∧
        (enrich_stock_info happyEnv sampleStock).close_price.isSome = true ∧
        (enrich_stock_info happyEnv sampleStock).growth_rate.isSome = true) ∨
       ((enrich_stock_info happyEnv sampleStock).open_price = none ∧
        (enrich_stock_info happyEnv sampleStock).high_price = none ∧
        (enrich_stock_info happyEnv sampleStock).low_price = none ∧
        (enrich_stock_info happyEnv sampleStock).close_price = none ∧
        (enrich_stock_info happyEnv sampleStock).growth_rate = none)) := by
  decide

/-- Enrichment skip on an unresolvable, empty or raising ticker lookup. -/
theorem enrich_skip_ticker (env : Env) (stock : StockInfo)
    (h : env.getTicker stock.name = Except.ok none ∨
         env.getTicker stock.name = Except.ok (some "") ∨
         ∃ e, env.getTicker stock.name = Except.error e) :
    enrich_stock_info env stock = stock := by
  unfold enrich_stock_info enrich_stock_info_body
  rcases h with h | h | ⟨e, h⟩ <;> rw [h] <;> simp [strOptTruthy]

/-- Enrichment skip on a sentinel or unparseable listing date. -/
theorem enrich_skip_date (env : Env) (stock : StockInfo)
    (h : stock.listing_date = none ∨ stock.listing_date = some "N/A" ∨
         stock.listing_date = some "" ∨
         ∃ ld, stock.listing_date = some ld ∧
           ∃ e, env.toDatetime (replaceDots ld) = Except.error e) :
    enrich_stock_info env stock = stock := by
  unfold enrich_stock_info enrich_stock_info_body
  cases hT : env.getTicker stock.name with
  | error e => rfl
  | ok ticker =>
    by_cases ht : strOptTruthy ticker
    · cases ticker with
      | none => simp [strOptTruthy] at ht
      | some t =>
        by_cases hc : stock.listing_date = none ∨ stock.listing_date = some "N/A" ∨
            stock.listing_date = some ""
        · simp [ht, hc]
        · rcases h with h | h | h | ⟨ld, hld, e, he⟩
          · exact absurd (Or.inl h) hc
          · exact absurd (Or.inr (Or.inl h)) hc
          · exact absurd (Or.inr (Or.inr h)) hc
          · simp [ht, hc, hld, he]
    · simp [ht]

/-- Enrichment skip when the OHLC lookup yields nothing or raises. -/
theorem enrich_skip_ohlc (env : Env) (stock : StockInfo)
    (h : ∀ t d, env.getOhlc t d = Except.ok none ∨
         ∃ e, env.getOhlc t d = Except.error e) :
    enrich_stock_info env stock = stock := by
  unfold enrich_stock_info enrich_stock_info_body
  cases hT : env.getTicker stock.name with
  | error e => rfl
  | ok ticker =>
    by_cases ht : strOptTruthy ticker
    · cases ticker with
      | none => simp [strOptTruthy] at ht
      | some t =>
        by_cases hc : stock.listing_date = none ∨ stock.listing_date = some "N/A" ∨
            stock.listing_date = some ""
        · simp [ht, hc]
        · cases hld : stock.listing_date with
          | none => exact absurd (Or.inl hld) hc
          | some ld =>
            rw [hld] at hc
            have hc1 : ¬ (ld = "N/A") := fun hx => hc (by simp [hx])
            have hc2 : ¬ (ld = "") := fun hx => hc (by simp [hx])
            cases hD : env.toDatetime (replaceDots ld) with
            | error e => simp [ht, hld, hD, hc1, hc2]
            | ok d =>
              rcases h t d with hO | ⟨e, hO⟩ <;> simp [ht, hld, hD, hO, hc1, hc2]
    · simp [ht]

/-- Outer exception handler: a raising body returns the stock unchanged. -/
theorem enrich_body_error (env : Env) (stock : StockInfo) (e : Unit)
    (h : enrich_stock_info_body env stock = Except.error e) :
    enrich_stock_info env stock = stock := by
  unfold enrich_stock_info
  rw [h]

/-- C3: enrich_stock_info returns the input record unchanged — and never
propagates an exception, the outer handler mapping any raise to the input —
whenever the listing date is absent, "N/A", empty or unparseable by the date
parser; the same holds when the ticker is unresolvable (or empty, or the
lookup raises), when the OHLC lookup yields nothing or raises, and whenever
the body raises at any step. -/
theorem C3_skip_unchanged (env : Env) (stock : StockInfo) :
    ((stock.listing_date = none ∨ stock.listing_date = some "N/A" ∨
      stock.listing_date = some "" ∨
      ∃ ld, stock.listing_date = some ld ∧
        ∃ e, env.toDatetime (replaceDots ld) = Except.error e) →
      enrich_stock_info env stock = stock) ∧
    ((env.getTicker stock.name = Except.ok none ∨
      env.getTicker stock.name = Except.ok (some "") ∨
      ∃ e, env.getTicker stock.name = Except.error e) →
      enrich_stock_info env stock = stock) ∧
    ((∀ t d, env.getOhlc t d = Except.ok none ∨
        ∃ e, env.getOhlc t d = Except.error e) →
      enrich_stock_info env stock = stock) ∧
    (∀ e, enrich_stock_info_body env stock = Except.error e →
      enrich_stock_info env stock = stock) :=
  ⟨enrich_skip_date env stock, enrich_skip_ticker env stock, enrich_skip_ohlc env stock,
   fun e h => enrich_body_error env stock e h⟩

/-- C3 witness: an "N/A" listing date and an unresolvable ticker each leave
the record unchanged against an otherwise fully-working provider pair. -/
theorem C3_witness :
    enrich_stock_info happyEnv naStock = naStock ∧
    enrich_stock_info noTickerEnv sampleStock = sampleStock :=
  ⟨(C3_skip_unchanged happyEnv naStock).1 (Or.inr (Or.inl rfl)),
   (C3_skip_unchanged noTickerEnv sampleStock).2.1 (Or.inl rfl)⟩

/-- C6 (code bug): the per-entry success log formats the confirmed price with
a thousands separator; on a record whose confirmed price is absent this raises
TypeError outside every handler, so scrape_details propagates the exception
instead of continuing — the same call without a logger returns the scraped
record list. -/
theorem C6_logging_crash :
    scrape_details sampleScrapeEnv true none [("TestStock", "http://test.com")] =
      Except.error () ∧
    scrape_details sampleScrapeEnv false none [("TestStock", "http://test.com")] =
      Except.ok [sampleStock] :=
  ⟨rfl, rfl⟩

/-- Truncation of a non-positive rational is non-positive. -/
theorem pyTrunc_nonpos {q : ℚ} (h : q ≤ 0) : pyTrunc q ≤ 0 := by
  unfold pyTrunc
  by_cases h0 : 0 ≤ q
  · rw [if_pos h0]
    have hq0 : q = 0 := le_antisymm h h0
    simp [hq0]
  · rw [if_neg h0]
    exact Int.ceil_le.mpr (by exact_mod_cast h)

/-- Truncation is the identity on integral rationals. -/
theorem pyTrunc_den_one {q : ℚ} (h : q.den = 1) : (pyTrunc q : ℚ) = q := by
  have hq : (q.num : ℚ) = q := (Rat.den_eq_one_iff q).mp h
  unfold pyTrunc
  by_cases h0 : 0 ≤ q
  · rw [if_pos h0, ← hq, Int.floor_intCast]
  · rw [if_neg h0, ← hq, Int.ceil_intCast]

/-- C8 corrected: the row values written by EnrichmentService.enrich_data
equal the record returned by StockPriceEnricher.get_market_data whenever the
company name and the listing-date text are non-empty and the confirmed-price
text fails to parse or parses to a non-positive or integral value; they
diverge when the confirmed price parses to a positive non-integral number
(get_market_data truncates it to an int first, enrich_data uses the full
value) or when the name or listing-date text is empty (the two
implementations use different skip tests there). -/
theorem C8_amended (env : Env) (stock_name listing_date_val confirmed_price_val : String)
    (hn : ¬ (stock_name = "")) (hd : ¬ (listing_date_val = ""))
    (hp : ∀ q, env.pyFloat (stripCommas confirmed_price_val) = some q →
      q ≤ 0 ∨ q.den = 1) :
    get_market_data env stock_name listing_date_val confirmed_price_val =
      enrich_data_row env stock_name listing_date_val confirmed_price_val := by
  unfold get_market_data enrich_data_row
  rw [if_neg hn]
  cases hT : env.getTicker stock_name with
  | error e => rfl
  | ok ticker =>
    cases ticker with
    | none => rfl
    | some t =>
      by_cases ht : t = ""
      · simp [ht]
      · by_cases hna : listing_date_val = "N/A"
        · simp [ht, hna]
        · cases hD : env.toDatetime (replaceDots listing_date_val) with
          | error e => simp [ht, hna, hd, hD]
          | ok d =>
            cases hO : env.getOhlc t d with
            | error e => simp [ht, hna, hd, hD, hO]
            | ok ohlc =>
              cases ohlc with
              | none => simp [ht, hna, hd, hD, hO]
              | some o =>
                by_cases hpv : confirmed_price_val = ""
                · simp [ht, hna, hd, hD, hO, parse_price, hpv]
                · cases hq : env.pyFloat (stripCommas confirmed_price_val) with
                  | none => simp [ht, hna, hd, hD, hO, parse_price, hpv, hq]
                  | some q =>
                    rcases hp q hq with hle | hden
                    · have hq0 : ¬ (0 < q) := not_lt.mpr hle
                      have hn0 : pyTrunc q ≤ 0 := pyTrunc_nonpos hle
                      by_cases hz : pyTrunc q = 0
                      · simp [ht, hna, hd, hD, hO, parse_price, hpv, hq, hz, hq0]
                      · have hlt : ¬ (0 < pyTrunc q) := by omega
                        simp [ht, hna, hd, hD, hO, parse_price, hpv, hq, hz, hq0,
                          calculate_growth_rate, hlt]
                    · have hqcast : (pyTrunc q : ℚ) = q := pyTrunc_den_one hden
                      by_cases hq0 : 0 < q
                      · have hz : 0 < pyTrunc q := by
                          have hcast : (0 : ℚ) < (pyTrunc q : ℚ) := by
                            rw [hqcast]
                            exact hq0
                          exact_mod_cast hcast
                        simp [ht, hna, hd, hD, hO, parse_price, hpv, hq,
                          ne_of_gt hz, hq0, calculate_growth_rate, hz, hqcast]
                      · have hle2 : q ≤ 0 := not_lt.mp hq0
                        have hn0 : pyTrunc q ≤ 0 := pyTrunc_nonpos hle2
                        by_cases hz : pyTrunc q = 0
                        · simp [ht, hna, hd, hD, hO, parse_price, hpv, hq, hz, hq0]
                        · have hlt : ¬ (0 < pyTrunc q) := by omega
                          simp [ht, hna, hd, hD, hO, parse_price, hpv, hq, hz, hq0,
                            calculate_growth_rate, hlt]

/-- C8 counterexample: on the confirmed-price text "1500.5" with close 2100,
get_market_data truncates to 1500 and reports a 40.0% rate while enrich_data
computes with 1500.5 and reports 39.95%, so the two implementations are not
behaviourally equivalent. -/
theorem C8_counterexample :
    get_market_data floatEnv "TestStock" "2023.01.01" "1500.5" ≠
      enrich_data_row floatEnv "TestStock" "2023.01.01" "1500.5" := by
  have hs : stripCommas "1500.5" = "1500.5" := by decide
  have e1 : ¬ (("TestStock" : String) = "") := by decide
  have e2 : ¬ (("123456" : String) = "") := by decide
  have e3 : ¬ (("2023.01.01" : String) = "N/A") := by decide
  have e4 : ¬ (("2023.01.01" : String) = "") := by decide
  have e5 : ¬ (("1500.5" : String) = "") := by decide
  have hfloor : pyTrunc (3001 / 2 : ℚ) = 1500 := by
    norm_num [pyTrunc]
  have h1 : get_market_data floatEnv "TestStock" "2023.01.01" "1500.5" =
      { mOpen := some 2000, mHigh := some 2200, mLow := some 1900,
        mClose := some 2100, mRate := some 40 } := by
    unfold get_market_data parse_price floatEnv
    simp [hs, e1, e2, e3, e4, e5, hfloor, calculate_growth_rate]
    norm_num [pyRound2, pyRound0, round_eq]
  have h2 : enrich_data_row floatEnv "TestStock" "2023.01.01" "1500.5" =
      { mOpen := some 2000, mHigh := some 2200, mLow := some 1900,
        mClose := some 2100, mRate := some (799 / 20) } := by
    unfold enrich_data_row floatEnv
    simp [hs, e1, e2, e3, e4, e5]
    norm_num [pyRound2, pyRound0, round_eq]
  rw [h1, h2]
  intro hcontra
  have hr := congrArg MarketResult.mRate hcontra
  simp only [] at hr
  rw [Option.some_inj] at hr
  norm_num at hr

/-- C8 witness: on the integral confirmed-price text "1,500" the two
implementations agree. -/
theorem C8_witness :
    get_market_data floatEnv "TestStock" "2023.01.01" "1,500" =
      enrich_data_row floatEnv "TestStock" "2023.01.01" "1,500" := by
  apply C8_amended floatEnv "TestStock" "2023.01.01" "1,500" (by decide) (by decide)
  intro q hq
  right
  have hs : stripCommas "1,500" = "1500" := by decide
  rw [hs] at hq
  have hne : ¬ (("1500" : String) = "1500.5") := by decide
  have hv : floatEnv.pyFloat "1500" = some 1500 := by
    unfold floatEnv
    simp [hne]
  rw [hv] at hq
  cases hq
  norm_num [Rat.den_ofNat]

/-- Dictionary assignment then lookup: the new binding wins at its key, other
keys are untouched. -/
theorem lookupYear_setYear (m : YearMap) (y y' : ℤ) (s : Sheet) :
    lookupYear (setYear m y s) y' = if y' = y then some s else lookupYear m y' := by
  induction m with
  | nil =>
    by_cases h : y' = y
    · subst h
      simp [setYear, lookupYear, List.find?]
    · have h2 : ¬ (y = y') := fun hx => h hx.symm
      simp [setYear, lookupYear, List.find?, h, h2]
  | cons p rest ih =>
    by_cases hp : p.1 = y
    · simp only [setYear, if_pos hp]
      by_cases h : y' = y
      · subst h
        unfold lookupYear
        rw [List.find?_cons_of_pos _ (by simp)]
        simp
      · have h2 : ¬ (y = y') := fun hx => h hx.symm
        have h3 : ¬ (p.1 = y') := by
          rw [hp]
          exact h2
        unfold lookupYear
        rw [List.find?_cons_of_neg _ (by simpa using h2),
          List.find?_cons_of_neg _ (by simpa using h3)]
        rw [if_neg h]
    · simp only [setYear, if_neg hp]
      by_cases hh : p.1 = y'
      · have hne : ¬ (y' = y) := fun hx => hp (by rw [hh, hx])
        unfold lookupYear
        rw [List.find?_cons_of_pos _ (by simpa using hh),
          List.find?_cons_of_pos _ (by simpa using hh)]
        rw [if_neg hne]
      · unfold lookupYear at ih ⊢
        rw [List.find?_cons_of_neg _ (by simpa using hh),
          List.find?_cons_of_neg _ (by simpa using hh)]
        exact ih

/-- Dictionary assignment and the key list. -/
theorem yearKeys_setYear (m : YearMap) (y : ℤ) (s : Sheet) :
    yearKeys (setYear m y s) =
      if y ∈ yearKeys m then yearKeys m else yearKeys m ++ [y] := by
  induction m with
  | nil => simp [setYear, yearKeys]
  | cons p rest ih =>
    by_cases hp : p.1 = y
    · have h1 : setYear (p :: rest) y s = (y, s) :: rest := by
        simp [setYear, hp]
      have h2 : y ∈ yearKeys (p :: rest) := by
        simp [yearKeys, hp.symm]
      rw [h1, if_pos h2]
      simp [yearKeys, hp]
    · have h1 : setYear (p :: rest) y s = p :: setYear rest y s := by
        simp [setYear, hp]
      rw [h1]
      have h2 : yearKeys (p :: setYear rest y s) = p.1 :: yearKeys (setYear rest y s) := rfl
      have h3 : yearKeys (p :: rest) = p.1 :: yearKeys rest := rfl
      rw [h2, ih, h3]
      by_cases hm : y ∈ yearKeys rest
      · rw [if_pos hm, if_pos (by simp [List.mem_cons, hm])]
      · rw [if_neg hm, if_neg (by
          simp only [List.mem_cons]
          rintro (hx | hx)
          · exact hp hx.symm
          · exact hm hx)]
        rfl

/-- Dictionary assignment preserves distinctness of the keys. -/
theorem nodup_yearKeys_setYear {m : YearMap} (h : (yearKeys m).Nodup) (y : ℤ) (s : Sheet) :
    (yearKeys (setYear m y s)).Nodup := by
  rw [yearKeys_setYear]
  by_cases hm : y ∈ yearKeys m
  · rw [if_pos hm]
    exact h
  · rw [if_neg hm]
    simp [List.nodup_append, h, hm]

/-- Lookup misses exactly the absent keys. -/
theorem lookupYear_eq_none_iff (m : YearMap) (y : ℤ) :
    lookupYear m y = none ↔ y ∉ yearKeys m := by
  unfold lookupYear yearKeys
  simp only [Option.map_eq_none', List.find?_eq_none, decide_eq_true_eq, List.mem_map]
  constructor
  · rintro h ⟨p, hp, hy⟩
    exact h p hp hy
  · intro h p hp hy
    exact h ⟨p, hp, hy⟩

/-- Lookup of a present binding under distinct keys. -/
theorem lookupYear_eq_some_of_mem {m : YearMap} (h : (yearKeys m).Nodup) {y : ℤ}
    {s : Sheet} (hm : (y, s) ∈ m) : lookupYear m y = some s := by
  induction m with
  | nil => simp at hm
  | cons p rest ih =>
    have hnd : p.1 ∉ yearKeys rest ∧ (yearKeys rest).Nodup := by
      have := h
      rw [show yearKeys (p :: rest) = p.1 :: yearKeys rest from rfl,
        List.nodup_cons] at this
      exact this
    rcases List.mem_cons.mp hm with heq | hmem
    · subst heq
      unfold lookupYear
      rw [List.find?_cons_of_pos _ (by simp)]
      rfl
    · have hkey : y ∈ yearKeys rest := by
        simp only [yearKeys, List.mem_map]
        exact ⟨(y, s), hmem, rfl⟩
      have hne : ¬ (p.1 = y) := fun hp => hnd.1 (hp ▸ hkey)
      unfold lookupYear
      rw [List.find?_cons_of_neg _ (by simp [hne])]
      exact ih hnd.2 hmem

/-- Successful lookup yields a member binding. -/
theorem lookupYear_eq_some_mem {m : YearMap} {y : ℤ} {s : Sheet}
    (h : lookupYear m y = some s) : (y, s) ∈ m := by
  unfold lookupYear at h
  rw [Option.map_eq_some'] at h
  obtain ⟨pr, hfind, hsnd⟩ := h
  have hmem := List.mem_of_find?_eq_some hfind
  have hpred := List.find?_some hfind
  rw [decide_eq_true_eq] at hpred
  have hpr : pr = (y, s) := by
    cases pr
    simp only at hpred hsnd
    rw [hpred, hsnd]
  rwa [hpr] at hmem

/-- Lookup is permutation-invariant on dictionaries with distinct keys. -/
theorem lookupYear_perm {m m' : YearMap} (h : (yearKeys m).Nodup)
    (hp : m.Perm m') (y : ℤ) : lookupYear m y = lookupYear m' y := by
  have h' : (yearKeys m').Nodup := ((hp.map Prod.fst).nodup_iff).mp h
  cases hL : lookupYear m y with
  | none =>
    rw [lookupYear_eq_none_iff] at hL
    symm
    rw [lookupYear_eq_none_iff]
    intro hy
    exact hL ((hp.map Prod.fst).mem_iff.mpr hy)
  | some s =>
    have hmem := lookupYear_eq_some_mem hL
    exact (lookupYear_eq_some_of_mem h' (hp.mem_iff.mp hmem)).symm

/-- One merge step preserves distinct keys. -/
theorem nodup_yearKeys_mergeStep {acc : YearMap} (h : (yearKeys acc).Nodup)
    (p : ℤ × Sheet) : (yearKeys (mergeStep acc p)).Nodup := by
  unfold mergeStep
  cases hl : lookupYear acc p.1 <;> exact nodup_yearKeys_setYear h _ _

/-- The merge loop preserves distinct keys. -/
theorem nodup_yearKeys_mergeExisting {data : YearMap} (h : (yearKeys data).Nodup)
    (fs : YearMap) : (yearKeys (mergeExisting data fs)).Nodup := by
  induction fs generalizing data with
  | nil => exact h
  | cons p rest ih => exact ih (nodup_yearKeys_mergeStep h p)

/-- One merge step does not disturb other years' bindings. -/
theorem lookupYear_mergeStep_ne (acc : YearMap) (p : ℤ × Sheet) {y : ℤ}
    (h : ¬ (p.1 = y)) : lookupYear (mergeStep acc p) y = lookupYear acc y := by
  have hne : ¬ (y = p.1) := fun hx => h hx.symm
  unfold mergeStep
  cases hl : lookupYear acc p.1 <;> rw [lookupYear_setYear, if_neg hne]

/-- The merge loop does not touch years absent from the existing workbook. -/
theorem mergeExisting_lookup_not_mem (fs : YearMap) (data : YearMap) (y : ℤ)
    (h : y ∉ yearKeys fs) :
    lookupYear (mergeExisting data fs) y = lookupYear data y := by
  induction fs generalizing data with
  | nil => rfl
  | cons p rest ih =>
    have hy1 : ¬ (p.1 = y) := by
      intro he
      apply h
      show y ∈ yearKeys (p :: rest)
      rw [show yearKeys (p :: rest) = p.1 :: yearKeys rest from rfl]
      exact List.mem_cons.mpr (Or.inl he.symm)
    have hy2 : y ∉ yearKeys rest := by
      intro hm
      apply h
      show y ∈ yearKeys (p :: rest)
      rw [show yearKeys (p :: rest) = p.1 :: yearKeys rest from rfl]
      exact List.mem_cons.mpr (Or.inr hm)
    show lookupYear (mergeExisting (mergeStep data p) rest) y = lookupYear data y
    rw [ih (mergeStep data p) hy2, lookupYear_mergeStep_ne data p hy1]

/-- The merge loop's value at a year present in the existing workbook: the
existing rows are concatenated before the batch's rows and deduplicated
keep-last when the year is in the batch, and carried over unchanged
otherwise. -/
theorem mergeExisting_lookup_mem (fs : YearMap) (data : YearMap) (y : ℤ) (ex : Sheet)
    (hnd : (yearKeys fs).Nodup) (h : lookupYear fs y = some ex) :
    lookupYear (mergeExisting data fs) y =
      some (match lookupYear data y with
            | some nw => dropDuplicatesKeepLast (ex ++ nw)
            | none => ex) := by
  induction fs generalizing data with
  | nil => simp [lookupYear] at h
  | cons p rest ih =>
    have hnd2 : p.1 ∉ yearKeys rest ∧ (yearKeys rest).Nodup := by
      have h2 := hnd
      rw [show yearKeys (p :: rest) = p.1 :: yearKeys rest from rfl,
        List.nodup_cons] at h2
      exact h2
    by_cases hp : p.1 = y
    · have hex : p.2 = ex := by
        unfold lookupYear at h
        rw [List.find?_cons_of_pos _ (by simpa using hp)] at h
        simpa using h
      have hyrest : y ∉ yearKeys rest := hp ▸ hnd2.1
      show lookupYear (mergeExisting (mergeStep data p) rest) y = _
      rw [mergeExisting_lookup_not_mem rest (mergeStep data p) y hyrest]
      unfold mergeStep
      rw [hp, hex]
      cases hl : lookupYear data y with
      | some nw => rw [lookupYear_setYear, if_pos rfl]
      | none => rw [lookupYear_setYear, if_pos rfl]
    · have h' : lookupYear rest y = some ex := by
        unfold lookupYear at h ⊢
        rwa [List.find?_cons_of_neg _ (by simpa using hp)] at h
      show lookupYear (mergeExisting (mergeStep data p) rest) y = _
      rw [ih (mergeStep data p) hnd2.2 h', lookupYear_mergeStep_ne data p hp]

/-- Row sorting by listing date is a permutation. -/
theorem sortByListingDate_perm (s : Sheet) : (sortByListingDate s).Perm s :=
  List.perm_insertionSort dateLe s

/-- Row sorting by listing date sorts. -/
theorem sortByListingDate_sorted (s : Sheet) : (sortByListingDate s).Sorted dateLe :=
  List.sorted_insertionSort dateLe s

/-- Sorting every sheet's rows commutes with the year lookup. -/
theorem lookupYear_map_sortRows (m : YearMap) (y : ℤ) :
    lookupYear (m.map (fun p => (p.1, sortByListingDate p.2))) y =
      (lookupYear m y).map sortByListingDate := by
  induction m with
  | nil => rfl
  | cons p rest ih =>
    by_cases hp : p.1 = y
    · unfold lookupYear
      simp only [List.map_cons]
      rw [List.find?_cons_of_pos _ (by simpa using hp),
        List.find?_cons_of_pos _ (by simpa using hp)]
      rfl
    · unfold lookupYear at ih ⊢
      simp only [List.map_cons]
      rw [List.find?_cons_of_neg _ (by simpa using hp),
        List.find?_cons_of_neg _ (by simpa using hp)]
      exact ih

/-- Sorting every sheet's rows keeps the key list. -/
theorem yearKeys_map_sortRows (m : YearMap) :
    yearKeys (m.map (fun p => (p.1, sortByListingDate p.2))) = yearKeys m := by
  unfold yearKeys
  rw [List.map_map]
  rfl

/-- Lookup after the final per-sheet sort and sheet reordering. -/
theorem lookupYear_sortPhase (m : YearMap) (hm : (yearKeys m).Nodup) (y : ℤ) :
    lookupYear ((m.map (fun p => (p.1, sortByListingDate p.2))).insertionSort yearLe) y =
      (lookupYear m y).map sortByListingDate := by
  have hkeys : (yearKeys (m.map (fun p => (p.1, sortByListingDate p.2)))).Nodup := by
    rw [yearKeys_map_sortRows]
    exact hm
  have hperm := List.perm_insertionSort yearLe
    (m.map (fun p => (p.1, sortByListingDate p.2)))
  rw [← lookupYear_perm hkeys hperm.symm y]
  exact lookupYear_map_sortRows m y

/-- Lookup in the workbook written against an existing file. -/
theorem lookupYear_excelExport_some (fs data : YearMap)
    (hdata : (yearKeys data).Nodup) (y : ℤ) :
    lookupYear (excelExport (some fs) data) y =
      (lookupYear (mergeExisting data fs) y).map sortByListingDate := by
  unfold excelExport
  exact lookupYear_sortPhase (mergeExisting data fs)
    (nodup_yearKeys_mergeExisting hdata fs) y

/-- Lookup in the workbook written with no existing file. -/
theorem lookupYear_excelExport_none (data : YearMap)
    (hdata : (yearKeys data).Nodup) (y : ℤ) :
    lookupYear (excelExport none data) y =
      (lookupYear data y).map sortByListingDate := by
  unfold excelExport
  exact lookupYear_sortPhase data hdata y

/-- The written workbook has distinct sheet keys. -/
theorem nodup_yearKeys_excelExport (fsOpt : Option YearMap) (data : YearMap)
    (hdata : (yearKeys data).Nodup) : (yearKeys (excelExport fsOpt data)).Nodup := by
  have hstep : ∀ m : YearMap, (yearKeys m).Nodup →
      (yearKeys ((m.map (fun p => (p.1, sortByListingDate p.2))).insertionSort
        yearLe)).Nodup := by
    intro m hm
    have hkeys : (yearKeys (m.map (fun p => (p.1, sortByListingDate p.2)))).Nodup := by
      rw [yearKeys_map_sortRows]
      exact hm
    have hperm := List.perm_insertionSort yearLe
      (m.map (fun p => (p.1, sortByListingDate p.2)))
    exact ((hperm.map Prod.fst).nodup_iff).mpr hkeys
  cases fsOpt with
  | none => exact hstep data hdata
  | some fs => exact hstep (mergeExisting data fs) (nodup_yearKeys_mergeExisting hdata fs)

/-- Deduplication keeps only rows of the input. -/
theorem dropDup_subset {l : Sheet} {r : XRow} (h : r ∈ dropDuplicatesKeepLast l) :
    r ∈ l := by
  induction l with
  | nil => simp [dropDuplicatesKeepLast] at h
  | cons x xs ih =>
    unfold dropDuplicatesKeepLast at h
    by_cases hx : xs.any (fun q => q.rname = x.rname) = true
    · rw [if_pos hx] at h
      exact List.mem_cons_of_mem x (ih h)
    · rw [if_neg hx] at h
      rcases List.mem_cons.mp h with h1 | h1
      · exact h1 ▸ List.mem_cons_self x xs
      · exact List.mem_cons_of_mem x (ih h1)

/-- Deduplication by 종목명 leaves each name exactly once. -/
theorem dropDup_names_nodup (l : Sheet) :
    (rowNames (dropDuplicatesKeepLast l)).Nodup := by
  induction l with
  | nil => simp [dropDuplicatesKeepLast, rowNames]
  | cons x xs ih =>
    unfold dropDuplicatesKeepLast
    by_cases hx : xs.any (fun q => q.rname = x.rname) = true
    · rw [if_pos hx]
      exact ih
    · rw [if_neg hx]
      rw [show rowNames (x :: dropDuplicatesKeepLast xs) =
        x.rname :: rowNames (dropDuplicatesKeepLast xs) from rfl, List.nodup_cons]
      refine ⟨?_, ih⟩
      intro hmem
      obtain ⟨q, hq, hqr⟩ := List.mem_map.mp hmem
      have hqxs : q ∈ xs := dropDup_subset hq
      exact hx (List.any_eq_true.mpr ⟨q, hqxs, by simpa using hqr⟩)

/-- Deduplication preserves the set of names. -/
theorem dropDup_names_mem (l : Sheet) (n : String) :
    n ∈ rowNames (dropDuplicatesKeepLast l) ↔ n ∈ rowNames l := by
  induction l with
  | nil => simp [dropDuplicatesKeepLast]
  | cons x xs ih =>
    unfold dropDuplicatesKeepLast
    have hcons : rowNames (x :: xs) = x.rname :: rowNames xs := rfl
    by_cases hx : xs.any (fun q => q.rname = x.rname) = true
    · rw [if_pos hx, hcons, List.mem_cons, ih]
      constructor
      · intro h
        exact Or.inr h
      · rintro (h | h)
        · obtain ⟨q, hq, hqr⟩ := List.any_eq_true.mp hx
          rw [decide_eq_true_eq] at hqr
          subst h
          rw [show rowNames xs = xs.map XRow.rname from rfl, List.mem_map]
          exact ⟨q, hq, hqr⟩
        · exact h
    · rw [if_neg hx]
      rw [show rowNames (x :: dropDuplicatesKeepLast xs) =
        x.rname :: rowNames (dropDuplicatesKeepLast xs) from rfl, hcons,
        List.mem_cons, List.mem_cons, ih]

/-- Deduplication keeps, for each name, exactly the last-written row: finding
a name in the deduplicated list equals finding it in the reversed input. -/
theorem dropDup_find_last (l : Sheet) (n : String) :
    (dropDuplicatesKeepLast l).find? (fun r => r.rname = n) =
      l.reverse.find? (fun r => r.rname = n) := by
  induction l with
  | nil => rfl
  | cons x xs ih =>
    unfold dropDuplicatesKeepLast
    rw [List.reverse_cons, List.find?_append]
    by_cases hx : xs.any (fun q => q.rname = x.rname) = true
    · rw [if_pos hx, ih]
      by_cases hn : x.rname = n
      · obtain ⟨q, hq, hqr⟩ := List.any_eq_true.mp hx
        rw [decide_eq_true_eq] at hqr
        cases hfind : xs.reverse.find? (fun r => r.rname = n) with
        | some r => rw [Option.or_some]
        | none =>
          rw [List.find?_eq_none] at hfind
          exact absurd (by simpa using (hqr.trans hn))
            (by simpa using hfind q (List.mem_reverse.mpr hq))
      · have hone : [x].find? (fun r => r.rname = n) = none := by
          simp [List.find?, hn]
        rw [hone, Option.or_none]
    · rw [if_neg hx]
      by_cases hn : x.rname = n
      · have hxs : xs.reverse.find? (fun r => r.rname = n) = none := by
          rw [List.find?_eq_none]
          intro q hq hqn
          rw [decide_eq_true_eq] at hqn
          exact absurd (List.any_eq_true.mpr
            ⟨q, List.mem_reverse.mp hq, by simp [hqn, hn]⟩) hx
        rw [List.find?_cons_of_pos _ (by simpa using hn), hxs, Option.none_or]
        simp [List.find?, hn]
      · rw [List.find?_cons_of_neg _ (by simpa using hn), ih]
        have hone : [x].find? (fun r => r.rname = n) = none := by
          simp [List.find?, hn]
        rw [hone, Option.or_none]

/-- C7: export against an existing workbook with distinct sheet years. For a
year in both the file and the batch, the written sheet is the existing rows
concatenated before the new rows, deduplicated by company name keeping the
last-written row, sorted by listing date ascending; a year only in the file
keeps exactly its rows (a permutation: sorted by listing date); every written
sheet is sorted by listing date ascending; deduplication keeps exactly one row
per name, the bottom-most (last-written) one; and exporting twice with the
same batch leaves one row per unique company name of the batch. -/
theorem C7_export (fs data : YearMap) (y : ℤ)
    (hfs : (yearKeys fs).Nodup) (hdata : (yearKeys data).Nodup) :
    (∀ ex nw, lookupYear fs y = some ex → lookupYear data y = some nw →
        lookupYear (excelExport (some fs) data) y =
          some (sortByListingDate (dropDuplicatesKeepLast (ex ++ nw)))) ∧
    (∀ ex, lookupYear fs y = some ex → lookupYear data y = none →
        lookupYear (excelExport (some fs) data) y = some (sortByListingDate ex) ∧
        (sortByListingDate ex).Perm ex) ∧
    (∀ p ∈ excelExport (some fs) data, p.2.Sorted dateLe) ∧
    (∀ ex nw : Sheet,
        (rowNames (dropDuplicatesKeepLast (ex ++ nw))).Nodup ∧
        (∀ n, n ∈ rowNames (dropDuplicatesKeepLast (ex ++ nw)) ↔
            n ∈ rowNames (ex ++ nw)) ∧
        (∀ n, (dropDuplicatesKeepLast (ex ++ nw)).find? (fun r => r.rname = n) =
            (ex ++ nw).reverse.find? (fun r => r.rname = n))) ∧
    (∀ nw, lookupYear data y = some nw →
        ∃ out, lookupYear (excelExport (some (excelExport none data)) data) y =
            some out ∧
          (rowNames out).Nodup ∧
          (∀ n, n ∈ rowNames out ↔ n ∈ rowNames nw)) := by
  refine ⟨?_, ?_, ?_, ?_, ?_⟩
  · intro ex nw h1 h2
    rw [lookupYear_excelExport_some fs data hdata y,
      mergeExisting_lookup_mem fs data y ex hfs h1, h2]
    rfl
  · intro ex h1 h2
    constructor
    · rw [lookupYear_excelExport_some fs data hdata y,
        mergeExisting_lookup_mem fs data y ex hfs h1, h2]
      rfl
    · exact sortByListingDate_perm ex
  · intro p hp
    simp only [excelExport, List.mem_insertionSort] at hp
    obtain ⟨q, hq, rfl⟩ := List.mem_map.mp hp
    exact sortByListingDate_sorted q.2
  · intro ex nw
    exact ⟨dropDup_names_nodup (ex ++ nw), dropDup_names_mem (ex ++ nw),
      dropDup_find_last (ex ++ nw)⟩
  · intro nw h2
    have hfile1 : lookupYear (excelExport none data) y = some (sortByListingDate nw) := by
      rw [lookupYear_excelExport_none data hdata y, h2]
      rfl
    have hkeys1 : (yearKeys (excelExport none data)).Nodup :=
      nodup_yearKeys_excelExport none data hdata
    have hmain : lookupYear (excelExport (some (excelExport none data)) data) y =
        some (sortByListingDate
          (dropDuplicatesKeepLast (sortByListingDate nw ++ nw))) := by
      rw [lookupYear_excelExport_some (excelExport none data) data hdata y,
        mergeExisting_lookup_mem (excelExport none data) data y
          (sortByListingDate nw) hkeys1 hfile1, h2]
      rfl
    refine ⟨_, hmain, ?_, ?_⟩
    · have hperm := (sortByListingDate_perm
        (dropDuplicatesKeepLast (sortByListingDate nw ++ nw))).map XRow.rname
      exact hperm.nodup_iff.mpr (dropDup_names_nodup _)
    · intro n
      have hperm := (sortByListingDate_perm
        (dropDuplicatesKeepLast (sortByListingDate nw ++ nw))).map XRow.rname
      rw [show rowNames (sortByListingDate (dropDuplicatesKeepLast
          (sortByListingDate nw ++ nw))) =
        (sortByListingDate (dropDuplicatesKeepLast
          (sortByListingDate nw ++ nw))).map XRow.rname from rfl]
      rw [hperm.mem_iff]
      rw [show (dropDuplicatesKeepLast (sortByListingDate nw ++ nw)).map XRow.rname =
        rowNames (dropDuplicatesKeepLast (sortByListingDate nw ++ nw)) from rfl]
      rw [dropDup_names_mem]
      rw [show rowNames (sortByListingDate nw ++ nw) =
        rowNames (sortByListingDate nw) ++ rowNames nw from by simp [rowNames]]
      rw [List.mem_append]
      have hnw := (sortByListingDate_perm nw).map XRow.rname
      rw [show rowNames (sortByListingDate nw) =
        (sortByListingDate nw).map XRow.rname from rfl]
      rw [hnw.mem_iff]
      rw [show nw.map XRow.rname = rowNames nw from rfl]
      tauto

/-- C7 witness: a 2024 sheet present in both file and batch merges to the
deduplicated keep-last rows, and the file-only 2023 sheet is preserved (as a
permutation, sorted by listing date). -/
theorem C7_witness :
    lookupYear (excelExport (some wFile) wData) 2024 =
      some (sortByListingDate (dropDuplicatesKeepLast ([rowA] ++ [rowA2, rowB]))) ∧
    lookupYear (excelExport (some wFile) wData) 2023 =
      some (sortByListingDate [rowB]) ∧
    (sortByListingDate [rowB]).Perm [rowB] := by
  refine ⟨?_, ?_, ?_⟩
  · exact (C7_export wFile wData 2024 (by decide) (by decide)).1
      [rowA] [rowA2, rowB] (by decide) (by decide)
  · exact ((C7_export wFile wData 2023 (by decide) (by decide)).2.1
      [rowB] (by decide) (by decide)).1
  · exact ((C7_export wFile wData 2023 (by decide) (by decide)).2.1
      [rowB] (by decide) (by decide)).2

end StockCrawler
